import Mathlib

/-!
Verification development for the RDMC Registry Service.

The service (Python/FastAPI/SQLAlchemy) ingests "manifest" JSON documents
describing research data management collections, derives summary fields and
contributor rows from them (`rdmc_mapping.py`), and upserts them into a
two-table store (`api.py`, `models.py`).

This file gives a shallow embedding of that code:
* `Json` models Python values as they appear in a parsed JSON manifest
  (numbers are modelled as integers; floats do not occur in any property
  we verify).
* Python attribute/len/iteration semantics on such values are modelled by
  `pyGet`, `pyLen`, `pyIter`, `pyLower`, `stripPy`; each returns `Except`
  and errors exactly where CPython would raise (AttributeError/TypeError).
  Python truthiness (`x or y`, `if x:`) is modelled by `truthy`/`jsonOr`.
* `derive_fields_from_manifest` is a line-by-line translation of
  `rdmc_mapping.derive_fields_from_manifest`.
* `ingest_rdmc` translates the upsert endpoint of `api.py` over an explicit
  store state `DB`; the read endpoints and FastAPI's first-match route
  dispatch are modelled for the routing-sensitive properties.
-/

/-- A parsed JSON / Python value as found in a manifest.  Numbers are
modelled as `Int` (no property below involves non-integer numbers).
Objects are association lists with distinct keys; `aGet` takes the first
binding, matching dict lookup on such lists. -/
inductive Json where
  | null
  | bool (b : Bool)
  | num (n : Int)
  | str (s : String)
  | arr (xs : List Json)
  | obj (kvs : List (String × Json))

/-- Python truthiness of a value: `None`, `False`, `0`, `""`, `[]`, `\x7b\x7d`
are falsy, everything else truthy. -/
def truthy : Json → Bool
  | .null => false
  | .bool b => b
  | .num n => n != 0
  | .str s => s != ""
  | .arr xs => !xs.isEmpty
  | .obj kvs => !kvs.isEmpty

/-- Python `a or b`: returns `a` when truthy, else `b`. -/
def jsonOr (a b : Json) : Json := if truthy a then a else b

/-- Dict lookup on an association list, Python `d.get(k)`: `None` when the
key is absent. -/
def aGet (kvs : List (String × Json)) (k : String) : Json :=
  match kvs.find? (fun kv => kv.1 == k) with
  | some kv => kv.2
  | none => Json.null

/-- Dict lookup with default, Python `d.get(k, dflt)`. -/
def aGetD (kvs : List (String × Json)) (k : String) (dflt : Json) : Json :=
  match kvs.find? (fun kv => kv.1 == k) with
  | some kv => kv.2
  | none => dflt

/-- Python `x.get(k)` on an arbitrary value: succeeds only on dicts,
raises `AttributeError` otherwise. -/
def pyGet (j : Json) (k : String) : Except String Json :=
  match j with
  | .obj kvs => .ok (aGet kvs k)
  | _ => .error "AttributeError: get"

/-- Python `x.get(k, dflt)` on an arbitrary value. -/
def pyGetD (j : Json) (k : String) (dflt : Json) : Except String Json :=
  match j with
  | .obj kvs => .ok (aGetD kvs k dflt)
  | _ => .error "AttributeError: get"

/-- View a value as a dict, as Python's first `.get` call on it would:
any non-dict raises `AttributeError`. -/
def asDict (j : Json) : Except String (List (String × Json)) :=
  match j with
  | .obj kvs => .ok kvs
  | _ => .error "AttributeError: get"

/-- Python `len(x)`: defined on strings, lists and dicts, `TypeError`
otherwise. -/
def pyLen (j : Json) : Except String Nat :=
  match j with
  | .str s => .ok s.length
  | .arr xs => .ok xs.length
  | .obj kvs => .ok kvs.length
  | _ => .error "TypeError: len"

/-- Python iteration `for x in v`: lists yield elements, strings yield
one-character strings, dicts yield their keys; other values raise
`TypeError`. -/
def pyIter (j : Json) : Except String (List Json) :=
  match j with
  | .arr xs => .ok xs
  | .str s => .ok (s.toList.map (fun ch => Json.str (String.mk [ch])))
  | .obj kvs => .ok (kvs.map (fun kv => Json.str kv.1))
  | _ => .error "TypeError: not iterable"

/-- Python `str.lower()` over the character list (extensionally the
same ASCII lowering as `String.toLower`, stated this way so concrete
witnesses evaluate by `rfl`). -/
def strLower (s : String) : String := String.mk (s.toList.map Char.toLower)

/-- Python `str.strip()` over the character list: drop leading and
trailing whitespace. -/
def strTrim (s : String) : String :=
  String.mk (((s.toList.dropWhile Char.isWhitespace).reverse.dropWhile
    Char.isWhitespace).reverse)

/-- Python `x.strip()`: only strings have `strip`. -/
def stripPy (j : Json) : Except String String :=
  match j with
  | .str s => .ok (strTrim s)
  | _ => .error "AttributeError: strip"

/-- Python `x.lower()`: only strings have `lower`. -/
def pyLower (j : Json) : Except String String :=
  match j with
  | .str s => .ok (strLower s)
  | _ => .error "AttributeError: lower"

/-- Python `repr`, as used by str() on container elements.  String
escaping inside repr is not modelled (no verified property depends on
it). -/
def pyRepr : Json → String
  | .null => "None"
  | .bool true => "True"
  | .bool false => "False"
  | .num n => toString n
  | .str s => "\x27" ++ s ++ "\x27"
  | .arr xs => "[" ++ String.intercalate ", " (reprList xs) ++ "]"
  | .obj kvs => "\x7b" ++ String.intercalate ", " (reprKVs kvs) ++ "\x7d"
where
  reprList : List Json → List String
    | [] => []
    | x :: xs => pyRepr x :: reprList xs
  reprKVs : List (String × Json) → List String
    | [] => []
    | kv :: kvs => ("\x27" ++ kv.1 ++ "\x27: " ++ pyRepr kv.2) :: reprKVs kvs

/-- Python `str(x)` / f-string interpolation of a value. -/
def pyStr (j : Json) : String :=
  match j with
  | .str s => s
  | _ => pyRepr j

/-- One contributor row produced by the mapper, with the keys inserted
into `rdmc_contributor` (`rdmc_mapping.py` lines 64-74). -/
structure ContribRow where
  position : Nat
  first_name : String
  last_name : String
  email : Json
  affiliation : Json
  orcid : Json
  role : Json

/-- The flat summary-field dict produced by the mapper
(`rdmc_mapping.py` lines 135-155). -/
structure RdmcFields where
  title : Json
  rdmc_version : Json
  manifest_schema_version : Json
  manifest_file_path : Json
  description : Json
  subject : Json
  license : Json
  keywords_raw : Json
  container_concept : Json
  contributors_count : Nat
  contributors_text : Option String
  artifacts_raw : Json
  artifact_count : Nat
  has_public_artifacts : Bool
  has_restricted_artifacts : Bool
  has_private_artifacts : Bool
  has_data_resources : Bool
  has_software_resources : Bool
  has_links : Bool

/-- Loop body of the contributors loop (`rdmc_mapping.py` lines 54-86):
normalizes one entry into a row and builds its display piece (`none`
when the piece is empty and hence skipped). -/
def contribStep (pos : Nat) (c : Json) : Except String (ContribRow × Option String) := do
  let first ← stripPy (jsonOr (← pyGet c "first_name") (Json.str ""))
  let last ← stripPy (jsonOr (← pyGet c "last_name") (Json.str ""))
  let email ← pyGet c "email"
  let affiliation ← pyGet c "affiliation"
  let orcid ← pyGet c "orcid"
  let role ← pyGet c "role"
  let row : ContribRow :=
    { position := pos, first_name := first, last_name := last,
      email := email, affiliation := affiliation, orcid := orcid, role := role }
  let piece := strTrim (first ++ " " ++ last)
  let piece := if truthy role then piece ++ " (" ++ pyStr role ++ ")" else piece
  let piece := if truthy orcid then piece ++ ", ORCID: " ++ pyStr orcid else piece
  let piece := if truthy affiliation then piece ++ ", " ++ pyStr affiliation else piece
  .ok (row, if piece = "" then none else some piece)

/-- The contributors loop: `enumerate(contributors)` starting at `pos`,
accumulating rows and non-empty display pieces in order. -/
def processContributors : Nat → List Json → Except String (List ContribRow × List String)
  | _, [] => .ok ([], [])
  | pos, c :: cs => do
      let (row, piece) ← contribStep pos c
      let (rows, parts) ← processContributors (pos + 1) cs
      .ok (row :: rows,
           match piece with
           | some p => p :: parts
           | none => parts)

/-- The six boolean artifact flags accumulated by the artifacts loop
(`rdmc_mapping.py` lines 97-102), all initially `False`. -/
structure ArtAcc where
  has_public : Bool
  has_restricted : Bool
  has_private : Bool
  has_data : Bool
  has_software : Bool
  has_links : Bool

def ArtAcc.init : ArtAcc :=
  { has_public := false, has_restricted := false, has_private := false,
    has_data := false, has_software := false, has_links := false }

/-- The shared body of the `files` and `folders` inner loops
(`rdmc_mapping.py` lines 115-127): the two loops in the source are
textually identical, so they are modelled by one helper called twice. -/
def scanResources : ArtAcc → List Json → Except String ArtAcc
  | acc, [] => .ok acc
  | acc, f :: fs => do
      let rtype ← pyLower (jsonOr (← pyGet f "resource type") (Json.str ""))
      let acc := if rtype = "data" then { acc with has_data := true }
                 else if rtype = "software" then { acc with has_software := true }
                 else acc
      scanResources acc fs

/-- Loop body of the artifacts loop (`rdmc_mapping.py` lines 104-132). -/
def artStep (acc : ArtAcc) (art : Json) : Except String ArtAcc := do
  let access_level ← pyLower (jsonOr (← pyGet art "access_level") (Json.str ""))
  let acc := if access_level = "public" then { acc with has_public := true }
             else if access_level = "restricted" then { acc with has_restricted := true }
             else if access_level = "private" then { acc with has_private := true }
             else acc
  let files ← pyIter (jsonOr (← pyGetD art "files" (Json.arr [])) (Json.arr []))
  let acc ← scanResources acc files
  let folders ← pyIter (jsonOr (← pyGetD art "folders" (Json.arr [])) (Json.arr []))
  let acc ← scanResources acc folders
  let links ← pyGet art "links"
  if truthy links then
    let n ← pyLen links
    .ok (if n > 0 then { acc with has_links := true } else acc)
  else
    .ok acc

def processArtifacts : ArtAcc → List Json → Except String ArtAcc
  | acc, [] => .ok acc
  | acc, a :: arts => do
      let acc ← artStep acc a
      processArtifacts acc arts

/-- Translation of `rdmc_mapping.derive_fields_from_manifest`.

The argument is the manifest's key/value bindings: FastAPI/pydantic
guarantees `RdmcIn.manifest` is a JSON object (`Dict[str, Any]`), so
top-level `.get` calls are total.  All five `.get` calls on
`rdmc_metadata` (lines 37-41 of the source) succeed exactly when the
metadata value is a dict; `asDict` performs that single check, as the
first `.get` in CPython would. -/
def derive_fields_from_manifest (manifest : List (String × Json)) :
    Except String (RdmcFields × List ContribRow) := do
  let title := jsonOr (aGet manifest "RDMC Title") (aGet manifest "title")
  let rdmc_version := aGet manifest "RDMC Version"
  let manifest_schema_version := aGet manifest "Manifest-Schemaversion"
  let manifest_file_path := aGet manifest "Manifest File Path"
  let md ← asDict (jsonOr (aGetD manifest "RDMC Metadata" (Json.obj [])) (Json.obj []))
  let description := aGet md "Description"
  let subject := aGet md "Subject"
  let license := aGet md "License"
  let keywords_raw := aGet md "Keywords"
  let container_concept := aGet md "container-concept"
  let contributors := jsonOr (aGetD md "Contributors" (Json.arr [])) (Json.arr [])
  let contributors_count ← pyLen contributors
  let citems ← pyIter contributors
  let (contributor_rows, contrib_parts) ← processContributors 0 citems
  let contributors_text :=
    if contrib_parts.isEmpty then none else some (String.intercalate "; " contrib_parts)
  let artifacts_raw := aGet manifest "Artifacts"
  let artifacts_details := jsonOr (aGetD manifest "Artifacts Details" (Json.arr [])) (Json.arr [])
  let artifact_count ← pyLen artifacts_details
  let aitems ← pyIter artifacts_details
  let fl ← processArtifacts ArtAcc.init aitems
  .ok ({ title := jsonOr title (Json.str "(no title)"),
         rdmc_version := rdmc_version,
         manifest_schema_version := manifest_schema_version,
         manifest_file_path := manifest_file_path,
         description := description,
         subject := subject,
         license := license,
         keywords_raw := keywords_raw,
         container_concept := container_concept,
         contributors_count := contributors_count,
         contributors_text := contributors_text,
         artifacts_raw := artifacts_raw,
         artifact_count := artifact_count,
         has_public_artifacts := fl.has_public,
         has_restricted_artifacts := fl.has_restricted,
         has_private_artifacts := fl.has_private,
         has_data_resources := fl.has_data,
         has_software_resources := fl.has_software,
         has_links := fl.has_links }, contributor_rows)

/-! ## Store model (`models.py`, `db.py`)

The two tables of the service, modelled as lists of rows plus an
autoincrement counter.  Timestamps are modelled by an abstract clock
value `Nat` supplied per request (`created_at` via `server_default
now()`, `updated_at` via `onupdate now()`).  The trigger-populated
`search_vector` column is not modelled.  Contributor rows carry no
surrogate id of their own: the service never reads it, and the
replace-wholesale semantics identify rows by `(rdmc_id, position)`
content. -/

/-- One row of the `rdmc` table (`models.py`, class `Rdmc`).  Column
defaults (`pid_status="pending"`, flag defaults, `is_latest=True`) are
applied by `newRdmc` on insert. -/
structure Rdmc where
  id : Nat
  external_id : String
  external_id_scheme : Option String
  pid : Option String
  pid_scheme : Option String
  pid_status : String
  pid_minted_at : Option Nat
  rdmc_version : Json
  manifest_schema_version : Json
  manifest_file_path : Json
  title : Json
  description : Json
  subject : Json
  license : Json
  keywords_raw : Json
  container_concept : Json
  contributors_count : Nat
  contributors_text : Option String
  artifacts_raw : Json
  artifact_count : Nat
  has_public_artifacts : Bool
  has_restricted_artifacts : Bool
  has_private_artifacts : Bool
  has_data_resources : Bool
  has_software_resources : Bool
  has_links : Bool
  manifest : List (String × Json)
  manifest_hash : Option String
  is_latest : Bool
  created_at : Nat
  updated_at : Nat

/-- One row of the `rdmc_contributor` table (`models.py`, class
`RdmcContributor`).  The optional identity columns hold the mapper's
passthrough values. -/
structure RdmcContributor where
  rdmc_id : Nat
  position : Nat
  first_name : String
  last_name : String
  email : Json
  affiliation : Json
  orcid : Json
  role : Json

/-- The store: both tables plus the `rdmc.id` sequence counter. -/
structure DB where
  rdmcs : List Rdmc
  contributors : List RdmcContributor
  next_id : Nat

def emptyDB : DB := { rdmcs := [], contributors := [], next_id := 1 }

/-- A fresh `Rdmc(external_id=...)` object with the column defaults of
`models.py` (`pid_status "pending"`, flags `False`, `is_latest True`,
timestamps `now()`).  Mapped fields are placeholders: the upsert
overwrites every one of them before the row is persisted. -/
def newRdmc (external_id : String) (id t : Nat) : Rdmc :=
  { id := id, external_id := external_id, external_id_scheme := none,
    pid := none, pid_scheme := none, pid_status := "pending", pid_minted_at := none,
    rdmc_version := Json.null, manifest_schema_version := Json.null,
    manifest_file_path := Json.null, title := Json.null, description := Json.null,
    subject := Json.null, license := Json.null, keywords_raw := Json.null,
    container_concept := Json.null, contributors_count := 0, contributors_text := none,
    artifacts_raw := Json.null, artifact_count := 0,
    has_public_artifacts := false, has_restricted_artifacts := false,
    has_private_artifacts := false, has_data_resources := false,
    has_software_resources := false, has_links := false,
    manifest := [], manifest_hash := none, is_latest := true,
    created_at := t, updated_at := t }

instance : Inhabited Rdmc := ⟨newRdmc "" 0 0⟩
instance : Inhabited DB := ⟨emptyDB⟩

/-- Request body of `POST /rdmcs` (`schemas.RdmcIn`).  pydantic
guarantees `manifest` is a JSON object, embedded as its bindings. -/
structure RdmcIn where
  external_id : String
  external_id_scheme : Option String := none
  pid : Option String := none
  pid_scheme : Option String := none
  manifest : List (String × Json)

/-- Truthiness of an `Optional[str]` payload field: `None` and `""` are
falsy in Python. -/
def optTruthy : Option String → Bool
  | none => false
  | some s => s != ""

/-- Lines 51-82 of `api.py`: mutate identity, PID and mapped fields on
the existing-or-new row object.  `updated_at` is the SQLAlchemy
`onupdate=func.now()` effect of the subsequent flush/commit. -/
def applyPayload (t : Nat) (payload : RdmcIn) (f : RdmcFields) (rdmc : Rdmc) : Rdmc :=
  { rdmc with
    external_id_scheme := payload.external_id_scheme,
    pid := if optTruthy payload.pid then payload.pid else rdmc.pid,
    pid_scheme := if optTruthy payload.pid_scheme then payload.pid_scheme else rdmc.pid_scheme,
    pid_status := if optTruthy payload.pid then "minted" else rdmc.pid_status,
    rdmc_version := f.rdmc_version,
    manifest_schema_version := f.manifest_schema_version,
    manifest_file_path := f.manifest_file_path,
    title := f.title,
    description := f.description,
    subject := f.subject,
    license := f.license,
    keywords_raw := f.keywords_raw,
    container_concept := f.container_concept,
    contributors_count := f.contributors_count,
    contributors_text := f.contributors_text,
    artifacts_raw := f.artifacts_raw,
    artifact_count := f.artifact_count,
    has_public_artifacts := f.has_public_artifacts,
    has_restricted_artifacts := f.has_restricted_artifacts,
    has_private_artifacts := f.has_private_artifacts,
    has_data_resources := f.has_data_resources,
    has_software_resources := f.has_software_resources,
    has_links := f.has_links,
    manifest := payload.manifest,
    updated_at := t }

/-- Replace the first list element satisfying `p` (the ORM updates the
single row found by `scalars(stmt).first()` in place). -/
def replaceFirst (p : α → Bool) (x : α) : List α → List α
  | [] => []
  | a :: as => if p a then x :: as else a :: replaceFirst p x as

/-- `RdmcContributor(rdmc_id=..., **c)` — one inserted contributor row
(`api.py` lines 94-105). -/
def contribInsert (id : Nat) (c : ContribRow) : RdmcContributor :=
  { rdmc_id := id, position := c.position,
    first_name := c.first_name, last_name := c.last_name,
    email := c.email, affiliation := c.affiliation,
    orcid := c.orcid, role := c.role }

/-- The committed effect of `ingest_rdmc` (`api.py` lines 39-108) once
the mapper has produced `f`/`crows`: look up by `external_id`
(first match), mutate or create the parent row, delete every contributor
row with the parent's id, insert the mapped contributor rows in order.
Returns the new store and the refreshed parent row. -/
def applyIngest (t : Nat) (payload : RdmcIn) (db : DB)
    (f : RdmcFields) (crows : List ContribRow) : DB × Rdmc :=
  let existing := db.rdmcs.find? (fun r => r.external_id == payload.external_id)
  let base := match existing with
    | some r => r
    | none => newRdmc payload.external_id db.next_id t
  let rdmc := applyPayload t payload f base
  let rdmcs := match existing with
    | some _ => replaceFirst (fun r => r.external_id == payload.external_id) rdmc db.rdmcs
    | none => db.rdmcs ++ [rdmc]
  let contributors :=
    db.contributors.filter (fun c => !(c.rdmc_id == rdmc.id))
      ++ crows.map (contribInsert rdmc.id)
  let next_id := match existing with
    | some _ => db.next_id
    | none => db.next_id + 1
  ({ rdmcs := rdmcs, contributors := contributors, next_id := next_id }, rdmc)

/-- `POST /rdmcs` (`api.py`, `ingest_rdmc`).  A mapper exception aborts
the request before any write, so the transaction leaves the store
unchanged; the source queries for the existing row before invoking the
mapper, but both operations are effect-free on the store, so the order
is immaterial. -/
def ingest_rdmc (t : Nat) (payload : RdmcIn) (db : DB) : Except String (DB × Rdmc) := do
  let (rdmc_fields, contributor_rows) ← derive_fields_from_manifest payload.manifest
  .ok (applyIngest t payload db rdmc_fields contributor_rows)

/-! ## Read endpoints and route dispatch (`api.py`, `main.py`)

`main.py` includes the router at the root path, so the route table is
exactly the decorators of `api.py` in their registration order.
Starlette dispatches a request to the **first** route whose method and
path pattern match; a `\x7bparam\x7d` template segment matches any single
path segment. -/

/-- Equality test used by the read queries when comparing a stored
passthrough value with a query-string literal. -/
def Json.beq : Json → Json → Bool
  | .null, .null => true
  | .bool a, .bool b => a == b
  | .num a, .num b => a == b
  | .str a, .str b => a == b
  | .arr a, .arr b => beqList a b
  | .obj a, .obj b => beqKVs a b
  | _, _ => false
where
  beqList : List Json → List Json → Bool
    | [], [] => true
    | x :: xs, y :: ys => Json.beq x y && beqList xs ys
    | _, _ => false
  beqKVs : List (String × Json) → List (String × Json) → Bool
    | [], [] => true
    | x :: xs, y :: ys => x.1 == y.1 && Json.beq x.2 y.2 && beqKVs xs ys
    | _, _ => false

instance : BEq Json := ⟨Json.beq⟩

/-- A response of the HTTP layer, as far as the verified properties
need it: success payloads keep the selected rows, error responses keep
status code and detail string (`HTTPException`). -/
inductive Response where
  | healthOk
  | detail (r : Rdmc)
  | summaries (rs : List Rdmc)
  | httpError (status : Nat) (detail : String)

/-- `ORDER BY created_at DESC` (insertion sort; ties keep store order,
which SQL leaves unspecified anyway). -/
def insertByCreatedDesc (r : Rdmc) : List Rdmc → List Rdmc
  | [] => [r]
  | x :: xs => if r.created_at ≤ x.created_at then x :: insertByCreatedDesc r xs
               else r :: x :: xs

def sortByCreatedDesc (l : List Rdmc) : List Rdmc :=
  l.foldr insertByCreatedDesc []

/-- `GET /rdmcs/\x7bexternal_id\x7d` (`api.py`, `get_rdmc`): select first by
`external_id`, 404 when absent. -/
def get_rdmc (external_id : String) (db : DB) : Response :=
  match db.rdmcs.find? (fun r => r.external_id == external_id) with
  | some r => .detail r
  | none => .httpError 404 "RDMC not found"

/-- `GET /rdmcs` (`api.py`, `list_rdmcs`): equality filters applied only
for truthy parameters, ordered by creation time descending. -/
def list_rdmcs (subject license_ container_concept : Option String) (db : DB) : Response :=
  .summaries (sortByCreatedDesc (db.rdmcs.filter (fun r =>
    (if optTruthy subject then r.subject == Json.str (subject.getD "") else true)
    && (if optTruthy license_ then r.license == Json.str (license_.getD "") else true)
    && (if optTruthy container_concept then
          r.container_concept == Json.str (container_concept.getD "") else true))))

/-- `GET /rdmcs/by-contributor` (`api.py`, `rdmcs_by_contributor`):
400 when both parameters are falsy, otherwise the distinct parents of
matching contributor rows (join on `rdmc_id`), ordered by creation time
descending. -/
def rdmcs_by_contributor (orcid email : Option String) (db : DB) : Response :=
  if !optTruthy orcid && !optTruthy email then
    .httpError 400 "Provide at least one of: orcid, email"
  else
    .summaries (sortByCreatedDesc (db.rdmcs.filter (fun r =>
      db.contributors.any (fun c =>
        c.rdmc_id == r.id
        && (if optTruthy orcid then c.orcid == Json.str (orcid.getD "") else true)
        && (if optTruthy email then c.email == Json.str (email.getD "") else true)))))

inductive Method where
  | get
  | post
deriving DecidableEq

/-- A segment of a route path template: literal, or a `\x7b...\x7d`
parameter capturing one path segment. -/
inductive Seg where
  | lit (s : String)
  | param
deriving DecidableEq

/-- Handler names, standing for the functions bound by the decorators
of `api.py`. -/
inductive HandlerTag where
  | healthCheck
  | ingestRdmc
  | listRdmcs
  | getRdmc
  | byContributor
deriving DecidableEq

/-- The router of `api.py` in registration order: `GET /` (line 24),
`POST /rdmcs` (line 33), `GET /rdmcs` (line 113), `GET
/rdmcs/\x7bexternal_id\x7d` (line 142), `GET /rdmcs/by-contributor`
(line 156). -/
def routes : List (Method × List Seg × HandlerTag) :=
  [ (.get,  [], .healthCheck),
    (.post, [.lit "rdmcs"], .ingestRdmc),
    (.get,  [.lit "rdmcs"], .listRdmcs),
    (.get,  [.lit "rdmcs", .param], .getRdmc),
    (.get,  [.lit "rdmcs", .lit "by-contributor"], .byContributor) ]

/-- Starlette path matching: template segments against the request's
(non-empty) path segments; a parameter matches any one segment. -/
def segsMatch : List Seg → List String → Bool
  | [], [] => true
  | .lit s :: ps, x :: xs => s == x && segsMatch ps xs
  | .param :: ps, _ :: xs => segsMatch ps xs
  | _, _ => false

/-- First-match route dispatch over the registration-ordered table. -/
def matchRoute (m : Method) (path : List String) : Option HandlerTag :=
  (routes.find? (fun r => r.1 == m && segsMatch r.2.1 path)).map (fun r => r.2.2)

/-- Dispatch of a GET request: route lookup in registration order, then
the matched handler with its captured path parameter or query
parameters.  (`POST /rdmcs` carries a body and a clock and is invoked
through `ingest_rdmc` directly by the write-side properties.) -/
def handleGet (path : List String)
    (subject license_ container_concept orcid email : Option String)
    (db : DB) : Response :=
  match matchRoute .get path with
  | some .healthCheck => .healthOk
  | some .listRdmcs => list_rdmcs subject license_ container_concept db
  | some .getRdmc => get_rdmc (path.getD 1 "") db
  | some .byContributor => rdmcs_by_contributor orcid email db
  | some .ingestRdmc => .httpError 405 "Method Not Allowed"
  | none => .httpError 404 "Not Found"

/-! ## Inversion and characterization lemmas -/

theorem except_bind_ok {α β : Type} {x : Except String α} {f : α → Except String β} {b : β}
    (h : x >>= f = .ok b) : ∃ a, x = .ok a ∧ f a = .ok b := by
  cases x with
  | ok a => exact ⟨a, rfl, h⟩
  | error e => exact absurd h (by simp [Bind.bind, Except.bind])

/-- Unfolding a successful `ingest_rdmc` into mapper output plus the
pure store transition. -/
theorem ingest_ok_elim {t : Nat} {p : RdmcIn} {db db' : DB} {row : Rdmc}
    (h : ingest_rdmc t p db = .ok (db', row)) :
    ∃ f crows, derive_fields_from_manifest p.manifest = .ok (f, crows)
      ∧ applyIngest t p db f crows = (db', row) := by
  unfold ingest_rdmc at h
  obtain ⟨fc, hfc, h⟩ := except_bind_ok h
  obtain ⟨f, crows⟩ := fc
  refine ⟨f, crows, hfc, ?_⟩
  simpa using h

/-- The piece built for one contributor row, following the display rule
of the spec (§4.1): names joined and trimmed, then role, ORCID and
affiliation appended when the corresponding value is truthy. -/
def specFragment (first last : String) (role orcid affiliation : Json) : String :=
  let piece := strTrim (first ++ " " ++ last)
  let piece := if truthy role then piece ++ " (" ++ pyStr role ++ ")" else piece
  let piece := if truthy orcid then piece ++ ", ORCID: " ++ pyStr orcid else piece
  if truthy affiliation then piece ++ ", " ++ pyStr affiliation else piece

/-- The optional display fragment contributed by one row: skipped when
empty. -/
def fragmentOfRow (r : ContribRow) : Option String :=
  let p := specFragment r.first_name r.last_name r.role r.orcid r.affiliation
  if p = "" then none else some p

theorem contribStep_ok_elim {pos : Nat} {c : Json} {row : ContribRow} {piece : Option String}
    (h : contribStep pos c = .ok (row, piece)) :
    row.position = pos ∧ piece = fragmentOfRow row := by
  unfold contribStep at h
  obtain ⟨v1, hv1, h⟩ := except_bind_ok h
  obtain ⟨first, hfirst, h⟩ := except_bind_ok h
  obtain ⟨v2, hv2, h⟩ := except_bind_ok h
  obtain ⟨last, hlast, h⟩ := except_bind_ok h
  obtain ⟨email, hemail, h⟩ := except_bind_ok h
  obtain ⟨affiliation, haff, h⟩ := except_bind_ok h
  obtain ⟨orcid, horcid, h⟩ := except_bind_ok h
  obtain ⟨role, hrole, h⟩ := except_bind_ok h
  simp only [Except.ok.injEq, Prod.mk.injEq] at h
  obtain ⟨hrow, hpiece⟩ := h
  subst hrow
  subst hpiece
  exact ⟨rfl, rfl⟩

theorem processContributors_ok_elim {items : List Json} {pos : Nat}
    {rows : List ContribRow} {parts : List String}
    (h : processContributors pos items = .ok (rows, parts)) :
    rows.map (fun r => r.position) = List.range' pos items.length
    ∧ rows.length = items.length
    ∧ parts = rows.filterMap fragmentOfRow := by
  induction items generalizing pos rows parts with
  | nil =>
    simp only [processContributors, Except.ok.injEq, Prod.mk.injEq] at h
    obtain ⟨h1, h2⟩ := h
    subst h1; subst h2
    simp [List.range']
  | cons c cs ih =>
    unfold processContributors at h
    obtain ⟨rp0, hstep, h⟩ := except_bind_ok h
    obtain ⟨row, piece⟩ := rp0
    obtain ⟨rps, hrec, h⟩ := except_bind_ok h
    obtain ⟨rows', parts'⟩ := rps
    simp only [Except.ok.injEq, Prod.mk.injEq] at h
    obtain ⟨h1, h2⟩ := h
    subst h1
    obtain ⟨hpos, hpiece⟩ := contribStep_ok_elim hstep
    obtain ⟨ih1, ih2, ih3⟩ := ih hrec
    subst h2
    refine ⟨?_, ?_, ?_⟩
    · simp [List.range', hpos, ih1]
    · simp [ih2]
    · subst hpiece
      subst ih3
      cases hfr : fragmentOfRow row <;> simp [List.filterMap, hfr]

/-- Whether one "Artifacts Details" entry carries the given lower-cased
`access_level` (the per-entry test of spec §4.1). -/
def entryAccessIs (lvl : String) (a : Json) : Bool :=
  match a with
  | .obj kvs =>
    match jsonOr (aGet kvs "access_level") (Json.str "") with
    | .str s => strLower s == lvl
    | _ => false
  | _ => false

/-- The files/folders scan only ever sets the data/software flags. -/
theorem scanResources_preserves {acc acc' : ArtAcc} {items : List Json}
    (h : scanResources acc items = .ok acc') :
    acc'.has_public = acc.has_public ∧ acc'.has_restricted = acc.has_restricted
    ∧ acc'.has_private = acc.has_private ∧ acc'.has_links = acc.has_links := by
  induction items generalizing acc with
  | nil =>
    simp only [scanResources, Except.ok.injEq] at h
    subst h; exact ⟨rfl, rfl, rfl, rfl⟩
  | cons f fs ih =>
    unfold scanResources at h
    obtain ⟨v, hv, h⟩ := except_bind_ok h
    obtain ⟨rtype, hr, h⟩ := except_bind_ok h
    have := ih h
    split at this <;> simp_all
    split at this <;> simp_all


theorem artStep_ok_elim {acc acc' : ArtAcc} {a : Json}
    (h : artStep acc a = .ok acc') :
    acc'.has_public = (acc.has_public || entryAccessIs "public" a)
    ∧ acc'.has_restricted = (acc.has_restricted || entryAccessIs "restricted" a)
    ∧ acc'.has_private = (acc.has_private || entryAccessIs "private" a) := by
  unfold artStep at h
  obtain ⟨v, hv, h⟩ := except_bind_ok h
  obtain ⟨access, hacc, h⟩ := except_bind_ok h
  obtain ⟨fv, hfv, h⟩ := except_bind_ok h
  obtain ⟨files, hfiles, h⟩ := except_bind_ok h
  obtain ⟨accA, hscanA, h⟩ := except_bind_ok h
  obtain ⟨gv, hgv, h⟩ := except_bind_ok h
  obtain ⟨folders, hfolders, h⟩ := except_bind_ok h
  obtain ⟨accB, hscanB, h⟩ := except_bind_ok h
  obtain ⟨links, hlinks, h⟩ := except_bind_ok h
  -- the links step leaves the three access flags of accB unchanged
  have hfinal : acc'.has_public = accB.has_public
      ∧ acc'.has_restricted = accB.has_restricted
      ∧ acc'.has_private = accB.has_private := by
    split at h
    · obtain ⟨n, hn, h⟩ := except_bind_ok h
      simp only [Except.ok.injEq] at h
      subst h
      split <;> exact ⟨rfl, rfl, rfl⟩
    · simp only [Except.ok.injEq] at h
      subst h
      exact ⟨rfl, rfl, rfl⟩
  obtain ⟨pB, rB, vB, _⟩ := scanResources_preserves hscanB
  obtain ⟨pA, rA, vA, _⟩ := scanResources_preserves hscanA
  obtain ⟨f1, f2, f3⟩ := hfinal
  -- a must be a dict for the access_level get to succeed
  have hkvs : ∃ kvs, a = Json.obj kvs := by
    cases a <;> simp [pyGet] at hv
    exact ⟨_, rfl⟩
  obtain ⟨kvs, hk⟩ := hkvs
  subst hk
  simp only [pyGet, Except.ok.injEq] at hv
  subst hv
  -- the lowered access string
  have haccs : ∃ s, jsonOr (aGet kvs "access_level") (Json.str "") = Json.str s
      ∧ access = strLower s := by
    cases hj : jsonOr (aGet kvs "access_level") (Json.str "") <;>
      simp [pyLower, hj] at hacc
    exact ⟨_, rfl, hacc.symm⟩
  obtain ⟨s, hjs, haccess⟩ := haccs
  have hentry : ∀ lvl, entryAccessIs lvl (Json.obj kvs) = (strLower s == lvl) := by
    intro lvl
    simp [entryAccessIs, hjs]
  rw [f1, pB, pA, f2, rB, rA, f3, vB, vA, hentry, hentry, hentry]
  subst haccess
  by_cases h1 : strLower s = "public"
  · simp [h1]
  · by_cases h2 : strLower s = "restricted"
    · simp [h1, h2, beq_false_of_ne h1]
    · by_cases h3 : strLower s = "private"
      · simp [h1, h2, h3, beq_false_of_ne h1, beq_false_of_ne h2]
      · simp [h1, h2, h3, beq_false_of_ne h1, beq_false_of_ne h2, beq_false_of_ne h3]

theorem processArtifacts_ok_elim {arts : List Json} {acc fl : ArtAcc}
    (h : processArtifacts acc arts = .ok fl) :
    fl.has_public = (acc.has_public || arts.any (entryAccessIs "public"))
    ∧ fl.has_restricted = (acc.has_restricted || arts.any (entryAccessIs "restricted"))
    ∧ fl.has_private = (acc.has_private || arts.any (entryAccessIs "private")) := by
  induction arts generalizing acc with
  | nil =>
    simp only [processArtifacts, Except.ok.injEq] at h
    subst h
    simp
  | cons a as ih =>
    unfold processArtifacts at h
    obtain ⟨acc1, hstep, h⟩ := except_bind_ok h
    obtain ⟨s1, s2, s3⟩ := artStep_ok_elim hstep
    obtain ⟨i1, i2, i3⟩ := ih h
    refine ⟨?_, ?_, ?_⟩ <;> simp [i1, i2, i3, s1, s2, s3, Bool.or_assoc]

/-- The list the artifacts loop runs over: the value at "Artifacts
Details" when it is a (truthy) JSON array, `[]` otherwise.  The lemma
below shows these are the only shapes a successful run can encounter. -/
def artifactEntries (m : List (String × Json)) : List Json :=
  match jsonOr (aGetD m "Artifacts Details" (Json.arr [])) (Json.arr []) with
  | .arr xs => xs
  | _ => []

/-- A `len`-able, iterable section value whose items all get processed
by a dict-expecting step must be an actual array: every other truthy
shape either fails `len()` or yields strings whose first `.get` raises. -/
theorem section_is_arr {v : Json} {n : Nat} {items : List Json}
    (hlen : pyLen v = .ok n) (hiter : pyIter v = .ok items)
    (hstr : ∀ s rest, items = Json.str s :: rest → False)
    (hdflt : truthy v = false → v = Json.arr []) :
    v = Json.arr items ∧ n = items.length := by
  by_cases ht : truthy v = false
  · have hv := hdflt ht
    subst hv
    simp only [pyIter, Except.ok.injEq] at hiter
    simp only [pyLen, Except.ok.injEq] at hlen
    subst hiter
    exact ⟨rfl, hlen.symm⟩
  · cases v with
    | arr xs =>
      simp only [pyIter, Except.ok.injEq] at hiter
      simp only [pyLen, Except.ok.injEq] at hlen
      subst hiter
      exact ⟨rfl, hlen.symm⟩
    | str s =>
      have hs : s ≠ "" := by
        simpa [truthy] using ht
      obtain ⟨c, cs, hcs⟩ : ∃ c cs, s.toList = c :: cs := by
        cases hsl : s.toList with
        | nil =>
          exact absurd (by cases s with
            | mk l => simp at hsl; simp [hsl]) hs
        | cons c cs => exact ⟨c, cs, rfl⟩
      simp only [pyIter, Except.ok.injEq] at hiter
      rw [hcs] at hiter
      exact absurd (hstr _ _ hiter.symm) (fun f => f)
    | obj kvs =>
      have hk : ¬kvs.isEmpty := by
        simpa [truthy] using ht
      obtain ⟨kv, rest, hkv⟩ : ∃ kv rest, kvs = kv :: rest := by
        cases kvs with
        | nil => simp at hk
        | cons kv rest => exact ⟨kv, rest, rfl⟩
      simp only [pyIter, Except.ok.injEq] at hiter
      rw [hkv] at hiter
      exact absurd (hstr _ _ hiter.symm) (fun f => f)
    | null => simp [truthy] at ht
    | bool b => simp [pyLen] at hlen
    | num m => simp [pyLen] at hlen

/-- The artifacts loop body raises on a string item (its first `.get`). -/
theorem processArtifacts_str {s : String} {rest : List Json} {acc : ArtAcc} {fl : ArtAcc}
    (h : processArtifacts acc (Json.str s :: rest) = .ok fl) : False := by
  unfold processArtifacts artStep at h
  obtain ⟨x, hx, _⟩ := except_bind_ok h
  obtain ⟨y, hy, _⟩ := except_bind_ok hx
  simp [pyGet] at hy

/-- The contributors loop body raises on a string item (its first `.get`). -/
theorem processContributors_str {s : String} {rest : List Json} {pos : Nat}
    {out : List ContribRow × List String}
    (h : processContributors pos (Json.str s :: rest) = .ok out) : False := by
  unfold processContributors contribStep at h
  obtain ⟨x, hx, _⟩ := except_bind_ok h
  obtain ⟨y, hy, _⟩ := except_bind_ok hx
  simp [pyGet] at hy

/-- Full inversion of a successful mapper run: the intermediate section
values, loop outputs, and the resulting field record. -/
theorem derive_ok_elim {m : List (String × Json)} {f : RdmcFields} {rows : List ContribRow}
    (h : derive_fields_from_manifest m = .ok (f, rows)) :
    ∃ md citems parts aitems fl ncnt acnt,
      asDict (jsonOr (aGetD m "RDMC Metadata" (Json.obj [])) (Json.obj [])) = .ok md
      ∧ pyLen (jsonOr (aGetD md "Contributors" (Json.arr [])) (Json.arr [])) = .ok ncnt
      ∧ pyIter (jsonOr (aGetD md "Contributors" (Json.arr [])) (Json.arr [])) = .ok citems
      ∧ processContributors 0 citems = .ok (rows, parts)
      ∧ pyLen (jsonOr (aGetD m "Artifacts Details" (Json.arr [])) (Json.arr [])) = .ok acnt
      ∧ pyIter (jsonOr (aGetD m "Artifacts Details" (Json.arr [])) (Json.arr [])) = .ok aitems
      ∧ processArtifacts ArtAcc.init aitems = .ok fl
      ∧ f = { title := jsonOr (jsonOr (aGet m "RDMC Title") (aGet m "title")) (Json.str "(no title)"),
              rdmc_version := aGet m "RDMC Version",
              manifest_schema_version := aGet m "Manifest-Schemaversion",
              manifest_file_path := aGet m "Manifest File Path",
              description := aGet md "Description",
              subject := aGet md "Subject",
              license := aGet md "License",
              keywords_raw := aGet md "Keywords",
              container_concept := aGet md "container-concept",
              contributors_count := ncnt,
              contributors_text :=
                if parts.isEmpty then none else some (String.intercalate "; " parts),
              artifacts_raw := aGet m "Artifacts",
              artifact_count := acnt,
              has_public_artifacts := fl.has_public,
              has_restricted_artifacts := fl.has_restricted,
              has_private_artifacts := fl.has_private,
              has_data_resources := fl.has_data,
              has_software_resources := fl.has_software,
              has_links := fl.has_links } := by
  unfold derive_fields_from_manifest at h
  obtain ⟨md, hmd, h⟩ := except_bind_ok h
  obtain ⟨ncnt, hncnt, h⟩ := except_bind_ok h
  obtain ⟨citems, hciter, h⟩ := except_bind_ok h
  obtain ⟨rp, hproc, h⟩ := except_bind_ok h
  obtain ⟨rows', parts⟩ := rp
  obtain ⟨acnt, hacnt, h⟩ := except_bind_ok h
  obtain ⟨aitems, haiter, h⟩ := except_bind_ok h
  obtain ⟨fl, hfl, h⟩ := except_bind_ok h
  simp only [Except.ok.injEq, Prod.mk.injEq] at h
  obtain ⟨hf, hrows⟩ := h
  subst hrows
  exact ⟨md, citems, parts, aitems, fl, ncnt, acnt,
    hmd, hncnt, hciter, hproc, hacnt, haiter, hfl, hf.symm⟩

theorem jsonOr_falsy_default {x d : Json} (h : truthy (jsonOr x d) = false) :
    jsonOr x d = d := by
  by_cases ht : truthy x = true
  · unfold jsonOr at h
    rw [if_pos ht, ht] at h
    exact Bool.noConfusion h
  · unfold jsonOr
    simp [ht]

theorem jsonOr_aGetD_falsy {m : List (String × Json)} {k : String} {d : Json}
    (hd : truthy d = false) (h : truthy (aGet m k) = false) :
    jsonOr (aGetD m k d) d = d := by
  unfold aGet at h
  unfold aGetD jsonOr
  cases hf : m.find? (fun kv => kv.1 == k) with
  | some kv =>
    rw [hf] at h
    simp [h]
  | none => simp [hd]

theorem exbind_ok {α β : Type} (a : α) (g : α → Except String β) :
    (Except.ok a >>= g) = g a := rfl

/-- C4 — for every contributor entry the mapper builds the display
fragment "first last" trimmed, then appends " (role)", ", ORCID: o" and
", affiliation" for each truthy field; fragments empty after trimming
are skipped, and `contributors_text` is the non-empty fragments joined
with "; ", or null when there are none.  ("Present" is formalized as
Python truthiness — the test the source applies — so a value of `""` or
`None` counts as absent; this is the only reading under which the
claim's skip clause is consistent.) -/
theorem C4_contributors_text_fragments {m : List (String × Json)} {f : RdmcFields}
    {rows : List ContribRow}
    (h : derive_fields_from_manifest m = .ok (f, rows)) :
    f.contributors_text =
      (let frags := rows.filterMap fragmentOfRow
       if frags.isEmpty then none else some (String.intercalate "; " frags)) := by
  obtain ⟨md, citems, parts, aitems, fl, ncnt, acnt,
    hmd, hncnt, hciter, hproc, hacnt, haiter, hfl, hf⟩ := derive_ok_elim h
  obtain ⟨-, -, hparts⟩ := processContributors_ok_elim hproc
  subst hf
  simp [hparts]

/-- C5 — the artifact access flags are OR-accumulated over all entries
of "Artifacts Details" and never reset: each of
has_public/has_restricted/has_private is true exactly when some entry's
lower-cased `access_level` equals the respective literal. -/
theorem C5_artifact_flags_or_accumulated {m : List (String × Json)} {f : RdmcFields}
    {rows : List ContribRow}
    (h : derive_fields_from_manifest m = .ok (f, rows)) :
    f.has_public_artifacts = (artifactEntries m).any (entryAccessIs "public")
    ∧ f.has_restricted_artifacts = (artifactEntries m).any (entryAccessIs "restricted")
    ∧ f.has_private_artifacts = (artifactEntries m).any (entryAccessIs "private") := by
  obtain ⟨md, citems, parts, aitems, fl, ncnt, acnt,
    hmd, hncnt, hciter, hproc, hacnt, haiter, hfl, hf⟩ := derive_ok_elim h
  obtain ⟨harr, -⟩ := section_is_arr hacnt haiter
    (fun s rest hcons => by rw [hcons] at hfl; exact processArtifacts_str hfl)
    jsonOr_falsy_default
  have hentries : artifactEntries m = aitems := by
    unfold artifactEntries
    rw [harr]
  obtain ⟨e1, e2, e3⟩ := processArtifacts_ok_elim hfl
  subst hf
  rw [hentries]
  exact ⟨by simpa [ArtAcc.init] using e1,
         by simpa [ArtAcc.init] using e2,
         by simpa [ArtAcc.init] using e3⟩

/-- C8 — `artifact_count` is the length of the array at "Artifacts
Details" (defaulting to empty), while `artifacts_raw` is a verbatim
passthrough of the distinct key "Artifacts". -/
theorem C8_artifact_count_and_raw {m : List (String × Json)} {f : RdmcFields}
    {rows : List ContribRow}
    (h : derive_fields_from_manifest m = .ok (f, rows)) :
    f.artifacts_raw = aGet m "Artifacts"
    ∧ f.artifact_count = (artifactEntries m).length := by
  obtain ⟨md, citems, parts, aitems, fl, ncnt, acnt,
    hmd, hncnt, hciter, hproc, hacnt, haiter, hfl, hf⟩ := derive_ok_elim h
  obtain ⟨harr, hlen⟩ := section_is_arr hacnt haiter
    (fun s rest hcons => by rw [hcons] at hfl; exact processArtifacts_str hfl)
    jsonOr_falsy_default
  have hentries : artifactEntries m = aitems := by
    unfold artifactEntries
    rw [harr]
  subst hf
  exact ⟨rfl, by rw [hentries]; exact hlen⟩

/-! ## Store-level lemmas for the upsert -/

theorem filter_pred_filter_not {α : Type} {p : α → Bool} (l : List α) :
    (l.filter (fun a => !p a)).filter p = [] := by
  induction l with
  | nil => rfl
  | cons a as ih =>
    by_cases ha : p a <;> simp [List.filter, ha, ih]

theorem filter_not_self_idem {α : Type} {p : α → Bool} (l : List α) :
    (l.filter (fun a => !p a)).filter (fun a => !p a) = l.filter (fun a => !p a) := by
  induction l with
  | nil => rfl
  | cons a as ih =>
    by_cases ha : p a <;> simp [List.filter, ha, ih]

theorem filter_of_map_true {α β : Type} {p : β → Bool} {g : α → β} (l : List α)
    (hall : ∀ a, p (g a) = true) :
    (l.map g).filter p = l.map g := by
  induction l with
  | nil => rfl
  | cons a as ih => simp [List.filter, hall a, ih]

theorem filter_of_map_false {α β : Type} {p : β → Bool} {g : α → β} (l : List α)
    (hall : ∀ a, p (g a) = false) :
    (l.map g).filter p = [] := by
  induction l with
  | nil => rfl
  | cons a as ih => simp [List.filter, hall a, ih]

theorem find?_replaceFirst_self {α : Type} {p : α → Bool} {x a : α} {l : List α}
    (hl : l.find? p = some a) (hx : p x = true) :
    (replaceFirst p x l).find? p = some x := by
  induction l with
  | nil => simp at hl
  | cons b bs ih =>
    by_cases hb : p b
    · simp [replaceFirst, hb, List.find?, hx]
    · rw [List.find?_cons_of_neg _ (by simp [hb])] at hl
      simp only [replaceFirst, if_neg (by simp [hb] : ¬p b = true)]
      rw [List.find?_cons_of_neg _ (by simp [hb])]
      exact ih hl

theorem find?_append_of_none {α : Type} {p : α → Bool} {x : α} {l : List α}
    (hl : l.find? p = none) (hx : p x = true) :
    (l ++ [x]).find? p = some x := by
  induction l with
  | nil => simp [List.find?, hx]
  | cons b bs ih =>
    have hb : p b = false := by
      by_cases h : p b
      · rw [List.find?_cons_of_pos _ h] at hl; exact absurd hl (by simp)
      · simpa using h
    rw [List.find?_cons_of_neg _ (by simp [hb])] at hl
    simp only [List.cons_append]
    rw [List.find?_cons_of_neg _ (by simp [hb])]
    exact ih hl

theorem mem_replaceFirst_of_false {α : Type} {p : α → Bool} {x a : α} {l : List α}
    (ha : a ∈ l) (hpa : p a = false) : a ∈ replaceFirst p x l := by
  induction l with
  | nil => simp at ha
  | cons b bs ih =>
    by_cases hb : p b
    · simp only [replaceFirst, if_pos hb]
      rcases List.mem_cons.mp ha with h | h
      · subst h; rw [hb] at hpa; exact absurd hpa (by simp)
      · exact List.mem_cons_of_mem _ h
    · simp only [replaceFirst, if_neg hb]
      rcases List.mem_cons.mp ha with h | h
      · subst h; exact List.mem_cons_self _ _
      · exact List.mem_cons_of_mem _ (ih h)

theorem jsonOr_jsonOr (a b c : Json) :
    jsonOr (jsonOr a b) c =
      if truthy a = true then a else if truthy b = true then b else c := by
  unfold jsonOr
  by_cases ta : truthy a = true <;> by_cases tb : truthy b = true <;> simp [ta, tb]

theorem applyIngest_snd (t : Nat) (p : RdmcIn) (db : DB) (f : RdmcFields)
    (crows : List ContribRow) :
    (applyIngest t p db f crows).2 =
      applyPayload t p f
        (match db.rdmcs.find? (fun r => r.external_id == p.external_id) with
         | some r => r
         | none => newRdmc p.external_id db.next_id t) := rfl

theorem applyIngest_contributors (t : Nat) (p : RdmcIn) (db : DB) (f : RdmcFields)
    (crows : List ContribRow) :
    (applyIngest t p db f crows).1.contributors =
      db.contributors.filter (fun c => !(c.rdmc_id == (applyIngest t p db f crows).2.id))
        ++ crows.map (contribInsert (applyIngest t p db f crows).2.id) := rfl

/-- C9 — the stored title is the value at "RDMC Title" when truthy,
else the value at "title" when truthy, else the literal placeholder
"(no title)".  ("Non-empty" is formalized as Python truthiness, the
test `or` applies.) -/
theorem C9_title_first_nonempty {t : Nat} {p : RdmcIn} {db db' : DB} {row : Rdmc}
    (h : ingest_rdmc t p db = .ok (db', row)) :
    row.title =
      (if truthy (aGet p.manifest "RDMC Title") = true then aGet p.manifest "RDMC Title"
       else if truthy (aGet p.manifest "title") = true then aGet p.manifest "title"
       else Json.str "(no title)") := by
  obtain ⟨f, crows, hd, happ⟩ := ingest_ok_elim h
  obtain ⟨md, citems, parts, aitems, fl, ncnt, acnt,
    hmd, hncnt, hciter, hproc, hacnt, haiter, hfl, hf⟩ := derive_ok_elim hd
  have hrow : row = (applyIngest t p db f crows).2 := by rw [happ]
  have htitle : (applyIngest t p db f crows).2.title = f.title := by
    cases hfind : db.rdmcs.find? (fun r => r.external_id == p.external_id) <;>
      simp [applyIngest, hfind, applyPayload]
  rw [hrow, htitle, hf]
  exact jsonOr_jsonOr _ _ _

/-- C1 — after every successful ingest, the stored contributor rows of
the target record are exactly the just-ingested manifest's contributors
in manifest order with positions `0..n-1` (all prior rows of that
record are deleted and replaced wholesale), and `contributors_count` is
the freshly mapped count. -/
theorem C1_contributors_full_replace {t : Nat} {p : RdmcIn} {db db' : DB} {row : Rdmc}
    {f : RdmcFields} {crows : List ContribRow}
    (h : ingest_rdmc t p db = .ok (db', row))
    (hd : derive_fields_from_manifest p.manifest = .ok (f, crows)) :
    db'.contributors.filter (fun c => c.rdmc_id == row.id) = crows.map (contribInsert row.id)
    ∧ crows.map (fun c => c.position) = List.range crows.length
    ∧ row.contributors_count = f.contributors_count := by
  obtain ⟨f', crows', hd', happ⟩ := ingest_ok_elim h
  rw [hd] at hd'
  rw [Except.ok.injEq, Prod.mk.injEq] at hd'
  obtain ⟨hf', hcr'⟩ := hd'
  subst hf'
  subst hcr'
  have hdb' : db' = (applyIngest t p db f crows).1 := by rw [happ]
  have hrow : row = (applyIngest t p db f crows).2 := by rw [happ]
  refine ⟨?_, ?_, ?_⟩
  · rw [hdb', hrow, applyIngest_contributors, List.filter_append,
      filter_pred_filter_not,
      filter_of_map_true _ (fun a => by simp [contribInsert])]
    simp
  · obtain ⟨md, citems, parts, aitems, fl, ncnt, acnt,
      hmd, hncnt, hciter, hproc, hacnt, haiter, hfl, hf⟩ := derive_ok_elim hd
    obtain ⟨hpos, hlen, -⟩ := processContributors_ok_elim hproc
    rw [hpos, List.range_eq_range', hlen]
  · have hcnt : (applyIngest t p db f crows).2.contributors_count = f.contributors_count := by
      cases hfind : db.rdmcs.find? (fun r => r.external_id == p.external_id) <;>
        simp [applyIngest, hfind, applyPayload]
    rw [hrow, hcnt]

/-- The PID of the record currently stored under `eid` (none when no
record exists). -/
def storedPid (db : DB) (eid : String) : Option String :=
  match db.rdmcs.find? (fun r => r.external_id == eid) with
  | some r => r.pid
  | none => none

def storedPidScheme (db : DB) (eid : String) : Option String :=
  match db.rdmcs.find? (fun r => r.external_id == eid) with
  | some r => r.pid_scheme
  | none => none

/-- The PID status stored under `eid`; a fresh record starts at the
column default "pending". -/
def storedPidStatus (db : DB) (eid : String) : String :=
  match db.rdmcs.find? (fun r => r.external_id == eid) with
  | some r => r.pid_status
  | none => "pending"

/-- C2 (amended) — `pid`/`pid_scheme` are overwritten only when the
incoming value is truthy (non-null **and** non-empty), otherwise the
stored value is retained; `pid_status` is set to "minted" exactly when
the incoming `pid` is truthy, so an ingest that omits `pid` on an
already-minted record leaves `pid_status = "minted"`. -/
theorem C2_pid_policy {t : Nat} {p : RdmcIn} {db db' : DB} {row : Rdmc}
    (h : ingest_rdmc t p db = .ok (db', row)) :
    (optTruthy p.pid = true → row.pid = p.pid ∧ row.pid_status = "minted")
    ∧ (optTruthy p.pid = false →
        row.pid = storedPid db p.external_id
        ∧ row.pid_status = storedPidStatus db p.external_id)
    ∧ (optTruthy p.pid_scheme = true → row.pid_scheme = p.pid_scheme)
    ∧ (optTruthy p.pid_scheme = false →
        row.pid_scheme = storedPidScheme db p.external_id) := by
  obtain ⟨f, crows, hd, happ⟩ := ingest_ok_elim h
  have hrow : row = (applyIngest t p db f crows).2 := by rw [happ]
  subst hrow
  cases hfind : db.rdmcs.find? (fun r => r.external_id == p.external_id) with
  | some r =>
    refine ⟨fun hp => ?_, fun hp => ?_, fun hp => ?_, fun hp => ?_⟩ <;>
      simp [applyIngest, hfind, applyPayload, storedPid, storedPidScheme,
        storedPidStatus, hp]
  | none =>
    refine ⟨fun hp => ?_, fun hp => ?_, fun hp => ?_, fun hp => ?_⟩ <;>
      simp [applyIngest, hfind, applyPayload, storedPid, storedPidScheme,
        storedPidStatus, newRdmc, hp]

/-- A payload whose `pid` is present and non-null but empty. -/
def p_pid_empty : RdmcIn := { external_id := "rdmc-1", pid := some "", manifest := [] }

/-- C2 counterexample — an ingest supplying the non-null `pid = ""` on
a fresh record leaves `pid_status = "pending"`, refuting "whenever the
incoming pid is non-null, pid_status is set to minted". -/
theorem C2_counterexample :
    p_pid_empty.pid = some ""
    ∧ (some "" : Option String) ≠ none
    ∧ (ingest_rdmc 0 p_pid_empty emptyDB).toOption.map (fun x => x.2.pid_status)
        = some "pending"
    ∧ "pending" ≠ "minted" :=
  ⟨rfl, by simp, rfl, by decide⟩

theorem applyPayload_external_id (t : Nat) (p : RdmcIn) (f : RdmcFields) (b : Rdmc) :
    (applyPayload t p f b).external_id = b.external_id := rfl

theorem applyPayload_id (t : Nat) (p : RdmcIn) (f : RdmcFields) (b : Rdmc) :
    (applyPayload t p f b).id = b.id := rfl

/-- Applying the same payload and mapper output twice only moves
`updated_at`: every other mutated field reaches a fixed point. -/
theorem applyPayload_applyPayload (t2 t1 : Nat) (p : RdmcIn) (f : RdmcFields) (b : Rdmc) :
    applyPayload t2 p f (applyPayload t1 p f b)
      = { applyPayload t1 p f b with updated_at := t2 } := by
  unfold applyPayload
  cases hp : optTruthy p.pid <;> cases hs : optTruthy p.pid_scheme <;> simp [hp, hs]

/-- After a successful ingest, the first record matching the payload's
`external_id` is the returned row. -/
theorem ingest_find_self {t : Nat} {p : RdmcIn} {db db' : DB} {row : Rdmc}
    (h : ingest_rdmc t p db = .ok (db', row)) :
    db'.rdmcs.find? (fun r => r.external_id == p.external_id) = some row := by
  obtain ⟨f, crows, hd, happ⟩ := ingest_ok_elim h
  have hdb' : db' = (applyIngest t p db f crows).1 := by rw [happ]
  have hrow : row = (applyIngest t p db f crows).2 := by rw [happ]
  cases hfind : db.rdmcs.find? (fun r => r.external_id == p.external_id) with
  | some r =>
    have hrdmcs : db'.rdmcs
        = replaceFirst (fun x => x.external_id == p.external_id)
            (applyPayload t p f r) db.rdmcs := by
      rw [hdb']; simp [applyIngest, hfind]
    have hrw : row = applyPayload t p f r := by
      rw [hrow]; simp [applyIngest, hfind]
    rw [hrdmcs, hrw]
    have hpr := List.find?_some hfind
    exact find?_replaceFirst_self hfind
      (by rw [applyPayload_external_id]; exact hpr)
  | none =>
    have hrw : row = applyPayload t p f (newRdmc p.external_id db.next_id t) := by
      rw [hrow]; simp [applyIngest, hfind]
    have hrdmcs : db'.rdmcs = db.rdmcs ++ [row] := by
      rw [hdb', hrw]; simp [applyIngest, hfind]
    rw [hrdmcs]
    exact find?_append_of_none hfind
      (by rw [hrw, applyPayload_external_id]; simp [newRdmc])

/-- C7 — ingesting the same manifest twice in a row for the same
`external_id` is idempotent in shape: the second ingest returns the
first row with only `updated_at` moved to the new clock, and the
contributor table is unchanged (same rows, same positions, same
content). -/
theorem C7_ingest_idempotent_shape {t1 t2 : Nat} {p : RdmcIn} {db db1 db2 : DB}
    {r1 r2 : Rdmc}
    (h1 : ingest_rdmc t1 p db = .ok (db1, r1))
    (h2 : ingest_rdmc t2 p db1 = .ok (db2, r2)) :
    r2 = { r1 with updated_at := t2 } ∧ db2.contributors = db1.contributors := by
  obtain ⟨f, crows, hd, happ1⟩ := ingest_ok_elim h1
  obtain ⟨f', crows', hd', happ2⟩ := ingest_ok_elim h2
  rw [hd] at hd'
  rw [Except.ok.injEq, Prod.mk.injEq] at hd'
  obtain ⟨hf', hcr'⟩ := hd'
  subst hf'
  subst hcr'
  have hfind1 := ingest_find_self h1
  have hr2 : r2 = applyPayload t2 p f r1 := by
    have hx : (applyIngest t2 p db1 f crows).2 = applyPayload t2 p f r1 := by
      simp [applyIngest, hfind1]
    rw [← hx, happ2]
  have hb : ∃ b, r1 = applyPayload t1 p f b := by
    cases hfind0 : db.rdmcs.find? (fun r => r.external_id == p.external_id) with
    | some r0 =>
      refine ⟨r0, ?_⟩
      have hx : (applyIngest t1 p db f crows).2 = applyPayload t1 p f r0 := by
        simp [applyIngest, hfind0]
      rw [← hx, happ1]
    | none =>
      refine ⟨newRdmc p.external_id db.next_id t1, ?_⟩
      have hx : (applyIngest t1 p db f crows).2
          = applyPayload t1 p f (newRdmc p.external_id db.next_id t1) := by
        simp [applyIngest, hfind0]
      rw [← hx, happ1]
  obtain ⟨b, hb⟩ := hb
  have hshape : r2 = { r1 with updated_at := t2 } := by
    rw [hr2, hb, applyPayload_applyPayload, ← hb]
  refine ⟨hshape, ?_⟩
  have hid : r2.id = r1.id := by rw [hshape]
  have hc2 : db2.contributors
      = db1.contributors.filter (fun c => !(c.rdmc_id == r2.id))
        ++ crows.map (contribInsert r2.id) := by
    have := applyIngest_contributors t2 p db1 f crows
    rw [happ2] at this
    exact this
  have hc1 : db1.contributors
      = db.contributors.filter (fun c => !(c.rdmc_id == r1.id))
        ++ crows.map (contribInsert r1.id) := by
    have := applyIngest_contributors t1 p db f crows
    rw [happ1] at this
    exact this
  rw [hc2, hid, hc1, List.filter_append, filter_not_self_idem,
    filter_of_map_false _ (fun a => by simp [contribInsert])]
  simp

/-- Store well-formedness: primary keys are pairwise distinct and below
the sequence counter — what PostgreSQL's `bigserial` primary key
guarantees. -/
def DBwf (db : DB) : Prop :=
  db.rdmcs.Pairwise (fun a b => a.id ≠ b.id)
  ∧ ∀ r ∈ db.rdmcs, r.id < db.next_id

theorem pairwise_ne_ids {l : List Rdmc} (h : l.Pairwise (fun a b => a.id ≠ b.id)) :
    ∀ a ∈ l, ∀ b ∈ l, a ≠ b → a.id ≠ b.id := by
  induction l with
  | nil => simp
  | cons x xs ih =>
    rw [List.pairwise_cons] at h
    obtain ⟨hx, hxs⟩ := h
    intro a ha b hb hne
    rcases List.mem_cons.mp ha with rfl | ha' <;> rcases List.mem_cons.mp hb with rfl | hb'
    · exact absurd rfl hne
    · exact hx b hb'
    · exact (hx a ha').symm
    · exact ih hxs a ha' b hb' hne

/-- C10 — an ingest of one `external_id` leaves every record with a
different `external_id` untouched, and also every contributor row owned
by such a record: the parent lookup/update filters on the payload's
`external_id` and the contributor delete filters on the target parent's
generated id only. -/
theorem C10_ingest_frame {t : Nat} {p : RdmcIn} {db db' : DB} {row : Rdmc}
    (hwf : DBwf db)
    (h : ingest_rdmc t p db = .ok (db', row)) :
    (∀ r ∈ db.rdmcs, r.external_id ≠ p.external_id → r ∈ db'.rdmcs)
    ∧ (∀ c ∈ db.contributors,
        (∃ r, r ∈ db.rdmcs ∧ c.rdmc_id = r.id ∧ r.external_id ≠ p.external_id) →
        c ∈ db'.contributors) := by
  obtain ⟨f, crows, hd, happ⟩ := ingest_ok_elim h
  have hdb' : db' = (applyIngest t p db f crows).1 := by rw [happ]
  have hrow : row = (applyIngest t p db f crows).2 := by rw [happ]
  have hcont : db'.contributors
      = db.contributors.filter (fun c => !(c.rdmc_id == row.id))
        ++ crows.map (contribInsert row.id) := by
    have := applyIngest_contributors t p db f crows
    rw [happ] at this
    exact this
  cases hfind : db.rdmcs.find? (fun r => r.external_id == p.external_id) with
  | some r0 =>
    have hr0mem : r0 ∈ db.rdmcs := List.mem_of_find?_eq_some hfind
    have hr0eid : r0.external_id = p.external_id := by
      have hpr := List.find?_some hfind
      exact eq_of_beq hpr
    have hrowid : row.id = r0.id := by
      rw [hrow]
      have hx : (applyIngest t p db f crows).2 = applyPayload t p f r0 := by
        simp [applyIngest, hfind]
      rw [hx, applyPayload_id]
    have hrdmcs : db'.rdmcs
        = replaceFirst (fun x => x.external_id == p.external_id)
            (applyPayload t p f r0) db.rdmcs := by
      rw [hdb']; simp [applyIngest, hfind]
    constructor
    · intro r hr hne
      rw [hrdmcs]
      exact mem_replaceFirst_of_false hr (by simpa using hne)
    · intro c hc ⟨r, hrmem, hcid, hne⟩
      have hrner0 : r ≠ r0 := fun he => hne (he ▸ hr0eid)
      have hidne : r.id ≠ r0.id := pairwise_ne_ids hwf.1 r hrmem r0 hr0mem hrner0
      rw [hcont]
      refine List.mem_append_left _ (List.mem_filter.mpr ⟨hc, ?_⟩)
      rw [hrowid, hcid]
      simp [hidne]
  | none =>
    have hrowid : row.id = db.next_id := by
      rw [hrow]
      have hx : (applyIngest t p db f crows).2
          = applyPayload t p f (newRdmc p.external_id db.next_id t) := by
        simp [applyIngest, hfind]
      rw [hx, applyPayload_id]
      rfl
    have hrdmcs : db'.rdmcs = db.rdmcs ++ [row] := by
      rw [hdb', hrow]; simp [applyIngest, hfind]
    constructor
    · intro r hr _
      rw [hrdmcs]
      exact List.mem_append_left _ hr
    · intro c hc ⟨r, hrmem, hcid, _⟩
      have hlt : r.id < db.next_id := hwf.2 r hrmem
      rw [hcont]
      refine List.mem_append_left _ (List.mem_filter.mpr ⟨hc, ?_⟩)
      rw [hrowid, hcid]
      simp [Nat.ne_of_lt hlt]

/-- C3 — the claim fails on the code: `api.py` registers `GET
/rdmcs/\x7bexternal_id\x7d` (line 142) before `GET /rdmcs/by-contributor`
(line 156), and Starlette dispatches to the first matching route, so a
request to `/rdmcs/by-contributor` is captured by the path parameter
and runs `get_rdmc("by-contributor")`, returning 404 "RDMC not found" —
not the 400 client-input error of the (unreachable) handler, whose own
behaviour the third conjunct shows.  The last conjunct shows the
handler is shadowed even when an `orcid` filter is supplied. -/
theorem C3_by_contributor_route_shadowed :
    matchRoute .get ["rdmcs", "by-contributor"] = some .getRdmc
    ∧ handleGet ["rdmcs", "by-contributor"] none none none none none emptyDB
        = .httpError 404 "RDMC not found"
    ∧ rdmcs_by_contributor none none emptyDB
        = .httpError 400 "Provide at least one of: orcid, email"
    ∧ handleGet ["rdmcs", "by-contributor"] none none none (some "0000-0001") none emptyDB
        = .httpError 404 "RDMC not found" :=
  ⟨rfl, rfl, rfl, rfl⟩

/-! ## Concrete witness scenarios -/

instance : Inhabited RdmcFields :=
  ⟨{ title := Json.null, rdmc_version := Json.null, manifest_schema_version := Json.null,
     manifest_file_path := Json.null, description := Json.null, subject := Json.null,
     license := Json.null, keywords_raw := Json.null, container_concept := Json.null,
     contributors_count := 0, contributors_text := none, artifacts_raw := Json.null,
     artifact_count := 0, has_public_artifacts := false, has_restricted_artifacts := false,
     has_private_artifacts := false, has_data_resources := false,
     has_software_resources := false, has_links := false }⟩

/-- Manifest A: three contributors. -/
def wManifestA : List (String × Json) :=
  [("RDMC Metadata", Json.obj
    [("Contributors", Json.arr
      [Json.obj [("first_name", Json.str "A1")],
       Json.obj [("first_name", Json.str "A2")],
       Json.obj [("first_name", Json.str "A3")]])])]

/-- Manifest B: one contributor. -/
def wManifestB : List (String × Json) :=
  [("RDMC Metadata", Json.obj
    [("Contributors", Json.arr [Json.obj [("first_name", Json.str "B1")]])])]

def wPayloadA : RdmcIn := { external_id := "X", manifest := wManifestA }

def wPayloadB : RdmcIn := { external_id := "X", manifest := wManifestB }

def wOut1 : DB × Rdmc := (ingest_rdmc 0 wPayloadA emptyDB).toOption.getD default

def wOut2 : DB × Rdmc := (ingest_rdmc 1 wPayloadB wOut1.1).toOption.getD default

def wFB : RdmcFields × List ContribRow :=
  (derive_fields_from_manifest wManifestB).toOption.getD default

/-- Witness for C1: ingesting manifest A (3 contributors) then manifest
B (1 contributor) under the same `external_id` leaves exactly B's single
contributor row. -/
theorem C1_witness :
    (wOut2.1.contributors.filter (fun c => c.rdmc_id == wOut2.2.id)
        = wFB.2.map (contribInsert wOut2.2.id)
      ∧ wFB.2.map (fun c => c.position) = List.range wFB.2.length
      ∧ wOut2.2.contributors_count = wFB.1.contributors_count)
    ∧ wOut1.1.contributors.length = 3
    ∧ wOut2.1.contributors.length = 1
    ∧ wOut2.2.contributors_count = 1 :=
  ⟨C1_contributors_full_replace
      (show ingest_rdmc 1 wPayloadB wOut1.1 = .ok (wOut2.1, wOut2.2) from rfl)
      (show derive_fields_from_manifest wPayloadB.manifest = .ok (wFB.1, wFB.2) from rfl),
   rfl, rfl, rfl⟩

/-- First ingest mints a PID for record "X". -/
def wPayloadMint : RdmcIn :=
  { external_id := "X", pid := some "10.1/ABC", pid_scheme := some "doi", manifest := [] }

/-- Second ingest omits `pid` entirely. -/
def wPayloadNoPid : RdmcIn := { external_id := "X", manifest := [] }

def wOutMint : DB × Rdmc := (ingest_rdmc 0 wPayloadMint emptyDB).toOption.getD default

def wOutNoPid : DB × Rdmc := (ingest_rdmc 1 wPayloadNoPid wOutMint.1).toOption.getD default

/-- Witness for C2: an ingest omitting `pid` on an already-minted
record retains the stored pid and leaves `pid_status = "minted"`. -/
theorem C2_witness :
    ((optTruthy wPayloadNoPid.pid = true →
        wOutNoPid.2.pid = wPayloadNoPid.pid ∧ wOutNoPid.2.pid_status = "minted")
      ∧ (optTruthy wPayloadNoPid.pid = false →
          wOutNoPid.2.pid = storedPid wOutMint.1 wPayloadNoPid.external_id
          ∧ wOutNoPid.2.pid_status = storedPidStatus wOutMint.1 wPayloadNoPid.external_id)
      ∧ (optTruthy wPayloadNoPid.pid_scheme = true →
          wOutNoPid.2.pid_scheme = wPayloadNoPid.pid_scheme)
      ∧ (optTruthy wPayloadNoPid.pid_scheme = false →
          wOutNoPid.2.pid_scheme = storedPidScheme wOutMint.1 wPayloadNoPid.external_id))
    ∧ storedPidStatus wOutMint.1 "X" = "minted"
    ∧ wOutNoPid.2.pid_status = "minted"
    ∧ wOutNoPid.2.pid = some "10.1/ABC" :=
  ⟨C2_pid_policy
      (show ingest_rdmc 1 wPayloadNoPid wOutMint.1 = .ok (wOutNoPid.1, wOutNoPid.2) from rfl),
   rfl, rfl, rfl⟩

/-- The spec's contributor-display example. -/
def wManifestAda : List (String × Json) :=
  [("RDMC Metadata", Json.obj
    [("Contributors", Json.arr
      [Json.obj [("first_name", Json.str "Ada"), ("last_name", Json.str "Lovelace"),
                 ("role", Json.str "PI"), ("orcid", Json.str "0000-0001"),
                 ("affiliation", Json.str "Dept X")]])])]

def wAdaFB : RdmcFields × List ContribRow :=
  (derive_fields_from_manifest wManifestAda).toOption.getD default

/-- Witness for C4: the Ada Lovelace entry yields exactly the fragment
of the spec example. -/
theorem C4_witness :
    (wAdaFB.1.contributors_text =
      (let frags := wAdaFB.2.filterMap fragmentOfRow
       if frags.isEmpty then none else some (String.intercalate "; " frags)))
    ∧ wAdaFB.1.contributors_text = some "Ada Lovelace (PI), ORCID: 0000-0001, Dept X" :=
  ⟨C4_contributors_text_fragments
      (show derive_fields_from_manifest wManifestAda = .ok (wAdaFB.1, wAdaFB.2) from rfl),
   by rfl⟩

/-- One public and one private artifact entry. -/
def wManifestPP : List (String × Json) :=
  [("Artifacts Details", Json.arr
    [Json.obj [("access_level", Json.str "public")],
     Json.obj [("access_level", Json.str "private")]])]

def wPPFB : RdmcFields × List ContribRow :=
  (derive_fields_from_manifest wManifestPP).toOption.getD default

/-- Witness for C5: a manifest with one public and one private entry
sets both flags simultaneously. -/
theorem C5_witness :
    (wPPFB.1.has_public_artifacts = (artifactEntries wManifestPP).any (entryAccessIs "public")
      ∧ wPPFB.1.has_restricted_artifacts
          = (artifactEntries wManifestPP).any (entryAccessIs "restricted")
      ∧ wPPFB.1.has_private_artifacts
          = (artifactEntries wManifestPP).any (entryAccessIs "private"))
    ∧ wPPFB.1.has_public_artifacts = true
    ∧ wPPFB.1.has_private_artifacts = true
    ∧ wPPFB.1.has_restricted_artifacts = false :=
  ⟨C5_artifact_flags_or_accumulated
      (show derive_fields_from_manifest wManifestPP = .ok (wPPFB.1, wPPFB.2) from rfl),
   by rfl, by rfl, by rfl⟩

def wOutTwice : DB × Rdmc := (ingest_rdmc 3 wPayloadA wOut1.1).toOption.getD default

/-- Witness for C7: re-ingesting manifest A for "X" at a later clock
returns the first row with only `updated_at` moved and leaves the
contributor table unchanged. -/
theorem C7_witness :
    wOutTwice.2 = { wOut1.2 with updated_at := 3 }
    ∧ wOutTwice.1.contributors = wOut1.1.contributors :=
  C7_ingest_idempotent_shape
    (show ingest_rdmc 0 wPayloadA emptyDB = .ok (wOut1.1, wOut1.2) from rfl)
    (show ingest_rdmc 3 wPayloadA wOut1.1 = .ok (wOutTwice.1, wOutTwice.2) from rfl)

/-- One artifact entry, no "Artifacts" key at all. -/
def wManifestCount : List (String × Json) :=
  [("Artifacts Details", Json.arr [Json.obj []])]

def wCountFB : RdmcFields × List ContribRow :=
  (derive_fields_from_manifest wManifestCount).toOption.getD default

/-- Witness for C8: a manifest with a non-empty "Artifacts Details"
array but no "Artifacts" key yields a positive `artifact_count`
together with a null `artifacts_raw`. -/
theorem C8_witness :
    (wCountFB.1.artifacts_raw = aGet wManifestCount "Artifacts"
      ∧ wCountFB.1.artifact_count = (artifactEntries wManifestCount).length)
    ∧ aGet wManifestCount "Artifacts" = Json.null
    ∧ wCountFB.1.artifact_count = 1 :=
  ⟨C8_artifact_count_and_raw
      (show derive_fields_from_manifest wManifestCount = .ok (wCountFB.1, wCountFB.2) from rfl),
   rfl, by rfl⟩

/-- A manifest with neither "RDMC Title" nor "title". -/
def wPayloadNoTitle : RdmcIn := { external_id := "T", manifest := [("x", Json.num 1)] }

def wOutNoTitle : DB × Rdmc := (ingest_rdmc 0 wPayloadNoTitle emptyDB).toOption.getD default

/-- Witness for C9: with both title keys absent the stored title is the
placeholder "(no title)". -/
theorem C9_witness :
    wOutNoTitle.2.title =
      (if truthy (aGet wPayloadNoTitle.manifest "RDMC Title") = true
         then aGet wPayloadNoTitle.manifest "RDMC Title"
       else if truthy (aGet wPayloadNoTitle.manifest "title") = true
         then aGet wPayloadNoTitle.manifest "title"
       else Json.str "(no title)")
    ∧ wOutNoTitle.2.title = Json.str "(no title)" :=
  ⟨C9_title_first_nonempty
      (show ingest_rdmc 0 wPayloadNoTitle emptyDB = .ok (wOutNoTitle.1, wOutNoTitle.2) from rfl),
   by rfl⟩

/-- Record "A" with one contributor. -/
def wPayloadFrameA : RdmcIn :=
  { external_id := "A",
    manifest := [("RDMC Metadata", Json.obj
      [("Contributors", Json.arr [Json.obj [("first_name", Json.str "F")]])])] }

def wPayloadFrameB : RdmcIn := { external_id := "B", manifest := [] }

def wDbA : DB := ((ingest_rdmc 0 wPayloadFrameA emptyDB).toOption.getD default).1

def wRowA : Rdmc := wDbA.rdmcs.headD default

def wContribA : RdmcContributor :=
  wDbA.contributors.headD
    { rdmc_id := 0, position := 0, first_name := "", last_name := "",
      email := Json.null, affiliation := Json.null, orcid := Json.null, role := Json.null }

def wOutFrame : DB × Rdmc := (ingest_rdmc 1 wPayloadFrameB wDbA).toOption.getD default

/-- Witness for C10: ingesting a payload for `external_id` "B" leaves
record "A" and its contributor row untouched. -/
theorem C10_witness :
    wRowA ∈ wOutFrame.1.rdmcs ∧ wContribA ∈ wOutFrame.1.contributors := by
  have hlist : wDbA.rdmcs = [wRowA] := rfl
  have hclist : wDbA.contributors = [wContribA] := rfl
  have hwf : DBwf wDbA := by
    constructor
    · rw [hlist]
      simp
    · intro r hr
      rw [hlist] at hr
      rcases List.mem_singleton.mp hr with rfl
      show wRowA.id < wDbA.next_id
      decide
  have hing : ingest_rdmc 1 wPayloadFrameB wDbA = .ok (wOutFrame.1, wOutFrame.2) := rfl
  have hmem : wRowA ∈ wDbA.rdmcs := by
    rw [hlist]
    exact List.mem_singleton.mpr rfl
  have hne : wRowA.external_id ≠ wPayloadFrameB.external_id := by decide
  have hcmem : wContribA ∈ wDbA.contributors := by
    rw [hclist]
    exact List.mem_singleton.mpr rfl
  exact ⟨(C10_ingest_frame hwf hing).1 wRowA hmem hne,
         (C10_ingest_frame hwf hing).2 wContribA hcmem ⟨wRowA, hmem, rfl, hne⟩⟩

/-! ## Totality on structurally-present-but-empty documents -/

/-- A contributor entry whose name fields are missing or empty.  The
entry must be a dict — the loop's `.get` calls, and the claim's
"per-contributor name fields", presuppose that much structure; the
remaining fields (email, affiliation, orcid, role) are unconstrained
because the loop treats them as raise-free passthroughs. -/
def emptyNames (c : Json) : Prop :=
  ∃ kvs, c = Json.obj kvs
    ∧ truthy (aGet kvs "first_name") = false
    ∧ truthy (aGet kvs "last_name") = false

/-- An artifact entry whose optional sections are missing or empty:
`files`, `folders` and `links` (the claim's list), and `access_level` —
a truthy access level would set a flag rather than leave the default,
so the claimed all-false flags require it missing or empty as well. -/
def emptyArtifact (a : Json) : Prop :=
  ∃ kvs, a = Json.obj kvs
    ∧ truthy (aGet kvs "access_level") = false
    ∧ truthy (aGet kvs "files") = false
    ∧ truthy (aGet kvs "folders") = false
    ∧ truthy (aGet kvs "links") = false

/-- The "RDMC Metadata" / "Contributors" side of the claim's class: the
metadata value is missing or empty, or a dict whose "Contributors"
value is missing or empty, or an array of entries whose name fields are
missing or empty. -/
def emptyishMetadata (m : List (String × Json)) : Prop :=
  truthy (aGet m "RDMC Metadata") = false
  ∨ ∃ md, aGet m "RDMC Metadata" = Json.obj md
      ∧ (truthy (aGet md "Contributors") = false
         ∨ ∃ cs, aGet md "Contributors" = Json.arr cs ∧ ∀ c ∈ cs, emptyNames c)

/-- The "Artifacts Details" side of the claim's class: missing or
empty, or an array of entries whose own optional sections are missing
or empty. -/
def emptyishArtifacts (m : List (String × Json)) : Prop :=
  truthy (aGet m "Artifacts Details") = false
  ∨ ∃ arts, aGet m "Artifacts Details" = Json.arr arts ∧ ∀ a ∈ arts, emptyArtifact a

theorem aGetD_of_aGet_ne_null {m : List (String × Json)} {k : String} {v : Json}
    (d : Json) (h : aGet m k = v) (hv : v ≠ Json.null) : aGetD m k d = v := by
  unfold aGet at h
  unfold aGetD
  cases hf : m.find? (fun kv => kv.1 == k) with
  | some kv => rw [hf] at h; exact h
  | none => rw [hf] at h; exact absurd h.symm hv

theorem jsonOr_obj_empty (kvs : List (String × Json)) :
    jsonOr (Json.obj kvs) (Json.obj []) = Json.obj kvs := by
  cases kvs with
  | nil => rfl
  | cons kv rest => rfl

theorem jsonOr_arr_empty (xs : List Json) :
    jsonOr (Json.arr xs) (Json.arr []) = Json.arr xs := by
  cases xs with
  | nil => rfl
  | cons x rest => rfl

/-- The loop body succeeds on a name-empty entry and normalizes both
names to the empty string (the `or ""` fallbacks plus strip). -/
theorem contribStep_empty_names {kvs : List (String × Json)} (pos : Nat)
    (h1 : truthy (aGet kvs "first_name") = false)
    (h2 : truthy (aGet kvs "last_name") = false) :
    ∃ out, contribStep pos (Json.obj kvs) = .ok out
      ∧ out.1.position = pos ∧ out.1.first_name = "" ∧ out.1.last_name = "" := by
  have e1 : jsonOr (aGet kvs "first_name") (Json.str "") = Json.str "" := by
    unfold jsonOr; simp [h1]
  have e2 : jsonOr (aGet kvs "last_name") (Json.str "") = Json.str "" := by
    unfold jsonOr; simp [h2]
  simp only [contribStep, pyGet, exbind_ok, e1, e2, stripPy]
  exact ⟨_, rfl, rfl, rfl, rfl⟩

/-- The whole contributors loop succeeds on name-empty entries, one row
per entry, every row carrying empty-string names. -/
theorem processContributors_empty_names {cs : List Json}
    (h : ∀ c ∈ cs, emptyNames c) :
    ∀ pos, ∃ rows parts, processContributors pos cs = .ok (rows, parts)
      ∧ (∀ r ∈ rows, r.first_name = "" ∧ r.last_name = "")
      ∧ rows.length = cs.length := by
  induction cs with
  | nil => exact fun pos => ⟨[], [], rfl, by simp, rfl⟩
  | cons c rest ih =>
    intro pos
    obtain ⟨kvs, rfl, h1, h2⟩ := h c (List.mem_cons_self _ _)
    obtain ⟨out, hstep, hpos, hf1, hf2⟩ := contribStep_empty_names pos h1 h2
    obtain ⟨row, piece⟩ := out
    obtain ⟨rows, parts, hrec, hnames, hlen⟩ :=
      ih (fun x hx => h x (List.mem_cons_of_mem _ hx)) (pos + 1)
    refine ⟨row :: rows,
            (match piece with | some p => p :: parts | none => parts), ?_, ?_, ?_⟩
    · simp only [processContributors, hstep, exbind_ok, hrec]
      cases piece <;> rfl
    · intro r hr
      rcases List.mem_cons.mp hr with rfl | hr'
      · exact ⟨hf1, hf2⟩
      · exact hnames r hr'
    · simp [hlen]

/-- The artifacts loop body is the identity on an empty-sections entry:
no flag is set and nothing raises. -/
theorem artStep_empty {kvs : List (String × Json)} (acc : ArtAcc)
    (ha : truthy (aGet kvs "access_level") = false)
    (hf : truthy (aGet kvs "files") = false)
    (hd : truthy (aGet kvs "folders") = false)
    (hl : truthy (aGet kvs "links") = false) :
    artStep acc (Json.obj kvs) = .ok acc := by
  have e0 : jsonOr (aGet kvs "access_level") (Json.str "") = Json.str "" := by
    unfold jsonOr; simp [ha]
  have ef : jsonOr (aGetD kvs "files" (Json.arr [])) (Json.arr []) = Json.arr [] :=
    jsonOr_aGetD_falsy rfl hf
  have eg : jsonOr (aGetD kvs "folders" (Json.arr [])) (Json.arr []) = Json.arr [] :=
    jsonOr_aGetD_falsy rfl hd
  simp only [artStep, pyGet, pyGetD, exbind_ok, e0, ef, eg, pyLower, pyIter,
    scanResources, hl]
  rfl

theorem processArtifacts_empty {arts : List Json} (acc : ArtAcc)
    (h : ∀ a ∈ arts, emptyArtifact a) :
    processArtifacts acc arts = .ok acc := by
  induction arts with
  | nil => rfl
  | cons a rest ih =>
    obtain ⟨kvs, rfl, ha, hf, hd, hl⟩ := h a (List.mem_cons_self _ _)
    simp only [processArtifacts, artStep_empty acc ha hf hd hl, exbind_ok]
    exact ih (fun x hx => h x (List.mem_cons_of_mem _ hx))

/-- One full mapper run over resolved sections: when the metadata value
resolves to a dict, its contributors to an array of name-empty entries,
and the details to an array of empty-sections entries, the mapper
succeeds and every derived field is determined (flags all false, one
name-empty row per contributor entry). -/
theorem derive_resolved (m : List (String × Json)) {md0 : List (String × Json)}
    {cs0 arts0 : List Json}
    (e_md : jsonOr (aGetD m "RDMC Metadata" (Json.obj [])) (Json.obj []) = Json.obj md0)
    (e_c : jsonOr (aGetD md0 "Contributors" (Json.arr [])) (Json.arr []) = Json.arr cs0)
    (e_d : jsonOr (aGetD m "Artifacts Details" (Json.arr [])) (Json.arr []) = Json.arr arts0)
    (hcs : ∀ c ∈ cs0, emptyNames c)
    (harts : ∀ a ∈ arts0, emptyArtifact a) :
    ∃ rows parts,
      processContributors 0 cs0 = .ok (rows, parts)
      ∧ derive_fields_from_manifest m = .ok
        ({ title := jsonOr (jsonOr (aGet m "RDMC Title") (aGet m "title"))
              (Json.str "(no title)"),
           rdmc_version := aGet m "RDMC Version",
           manifest_schema_version := aGet m "Manifest-Schemaversion",
           manifest_file_path := aGet m "Manifest File Path",
           description := aGet md0 "Description", subject := aGet md0 "Subject",
           license := aGet md0 "License", keywords_raw := aGet md0 "Keywords",
           container_concept := aGet md0 "container-concept",
           contributors_count := cs0.length,
           contributors_text :=
             if parts.isEmpty then none else some (String.intercalate "; " parts),
           artifacts_raw := aGet m "Artifacts",
           artifact_count := arts0.length,
           has_public_artifacts := false, has_restricted_artifacts := false,
           has_private_artifacts := false, has_data_resources := false,
           has_software_resources := false, has_links := false }, rows)
      ∧ (∀ r ∈ rows, r.first_name = "" ∧ r.last_name = "")
      ∧ rows.length = cs0.length := by
  obtain ⟨rows, parts, hproc, hnames, hlen⟩ := processContributors_empty_names hcs 0
  have hart : processArtifacts ArtAcc.init arts0 = .ok ArtAcc.init :=
    processArtifacts_empty _ harts
  refine ⟨rows, parts, hproc, ?_, hnames, hlen⟩
  unfold derive_fields_from_manifest
  rw [e_md]
  simp only [asDict, exbind_ok]
  rw [e_c]
  simp only [pyLen, pyIter, exbind_ok, hproc]
  rw [e_d]
  simp only [pyLen, pyIter, exbind_ok, hart]
  rfl

/-- C6 — on a structurally-present-but-empty document the mapper never
raises and degrades to defaults.  The class is every manifest whose
claim-listed optional sections are missing or empty at every level:
"RDMC Metadata" missing/empty or a dict, its "Contributors"
missing/empty or an array of entries with missing/empty name fields,
"Artifacts Details" missing/empty or an array of entries with
missing/empty access_level/files/folders/links.  Conclusion: the run
succeeds; every contributor row gets empty-string names; counts equal
the (possibly zero) entry counts; all six flags are false; and when a
section is missing/empty outright, its derived fields are null / zero /
empty exactly as the claim lists. -/
theorem C6_mapper_total_on_empty (m : List (String × Json))
    (h1 : emptyishMetadata m) (h2 : emptyishArtifacts m) :
    ∃ f rows, derive_fields_from_manifest m = .ok (f, rows)
      ∧ (∀ r ∈ rows, r.first_name = "" ∧ r.last_name = "")
      ∧ f.contributors_count = rows.length
      ∧ f.artifact_count = (artifactEntries m).length
      ∧ f.has_public_artifacts = false ∧ f.has_restricted_artifacts = false
      ∧ f.has_private_artifacts = false ∧ f.has_data_resources = false
      ∧ f.has_software_resources = false ∧ f.has_links = false
      ∧ (truthy (aGet m "RDMC Metadata") = false →
          f.description = Json.null ∧ f.subject = Json.null ∧ f.license = Json.null
          ∧ f.keywords_raw = Json.null ∧ f.container_concept = Json.null
          ∧ rows = [] ∧ f.contributors_count = 0 ∧ f.contributors_text = none)
      ∧ (truthy (aGet m "Artifacts Details") = false → f.artifact_count = 0) := by
  obtain ⟨md0, cs0, e_md, e_c, hcs⟩ :
      ∃ md0 cs0,
        jsonOr (aGetD m "RDMC Metadata" (Json.obj [])) (Json.obj []) = Json.obj md0
        ∧ jsonOr (aGetD md0 "Contributors" (Json.arr [])) (Json.arr []) = Json.arr cs0
        ∧ ∀ c ∈ cs0, emptyNames c := by
    rcases h1 with hfal | ⟨md, hmd, hsub⟩
    · exact ⟨[], [], jsonOr_aGetD_falsy rfl hfal, rfl, by simp⟩
    · have e_md : jsonOr (aGetD m "RDMC Metadata" (Json.obj [])) (Json.obj [])
          = Json.obj md := by
        rw [aGetD_of_aGet_ne_null (Json.obj []) hmd (by simp)]
        exact jsonOr_obj_empty md
      rcases hsub with hcf | ⟨cs, hcsv, hcs⟩
      · exact ⟨md, [], e_md, jsonOr_aGetD_falsy rfl hcf, by simp⟩
      · refine ⟨md, cs, e_md, ?_, hcs⟩
        rw [aGetD_of_aGet_ne_null (Json.arr []) hcsv (by simp)]
        exact jsonOr_arr_empty cs
  obtain ⟨arts0, e_d, harts⟩ :
      ∃ arts0,
        jsonOr (aGetD m "Artifacts Details" (Json.arr [])) (Json.arr []) = Json.arr arts0
        ∧ ∀ a ∈ arts0, emptyArtifact a := by
    rcases h2 with hfal | ⟨arts, hav, hart⟩
    · exact ⟨[], jsonOr_aGetD_falsy rfl hfal, by simp⟩
    · refine ⟨arts, ?_, hart⟩
      rw [aGetD_of_aGet_ne_null (Json.arr []) hav (by simp)]
      exact jsonOr_arr_empty arts
  obtain ⟨rows, parts, hproc, hderive, hnames, hlen⟩ :=
    derive_resolved m e_md e_c e_d hcs harts
  have hentries : artifactEntries m = arts0 := by
    unfold artifactEntries
    rw [e_d]
  refine ⟨_, rows, hderive, hnames, hlen.symm, by rw [hentries], rfl, rfl, rfl, rfl,
    rfl, rfl, ?_, ?_⟩
  · intro hfal
    have e0 : jsonOr (aGetD m "RDMC Metadata" (Json.obj [])) (Json.obj [])
        = Json.obj [] := jsonOr_aGetD_falsy rfl hfal
    rw [e0] at e_md
    have hmd0 : md0 = [] := by
      have := e_md
      rw [Json.obj.injEq] at this
      exact this.symm
    subst hmd0
    have hcs0 : cs0 = [] := by
      have := e_c
      rw [show jsonOr (aGetD ([] : List (String × Json)) "Contributors" (Json.arr []))
            (Json.arr []) = Json.arr [] from rfl, Json.arr.injEq] at this
      exact this.symm
    subst hcs0
    have hrows : rows = [] := List.length_eq_zero.mp hlen
    subst hrows
    obtain ⟨-, -, hparts⟩ := processContributors_ok_elim hproc
    simp [hparts, aGet]
  · intro hfal
    have e0 : jsonOr (aGetD m "Artifacts Details" (Json.arr [])) (Json.arr [])
        = Json.arr [] := jsonOr_aGetD_falsy rfl hfal
    rw [e0] at e_d
    have harts0 : arts0 = [] := by
      have := e_d
      rw [Json.arr.injEq] at this
      exact this.symm
    subst harts0
    rfl

/-- Structurally present but empty: metadata with a contributor entry
carrying no name fields, and an artifact entry carrying none of
access_level/files/folders/links. -/
def wManifestC6 : List (String × Json) :=
  [("RDMC Metadata", Json.obj
     [("Description", Json.str "d"),
      ("Contributors", Json.arr [Json.obj [("email", Json.str "a@b.c")]])]),
   ("Artifacts Details", Json.arr [Json.obj [("name", Json.str "art1")]])]

/-- Witness for C6: the mapper succeeds on `wManifestC6`, the lone
contributor row has empty-string names, and counts/flags degrade as
claimed. -/
theorem C6_witness :
    (∃ f rows, derive_fields_from_manifest wManifestC6 = .ok (f, rows)
      ∧ (∀ r ∈ rows, r.first_name = "" ∧ r.last_name = "")
      ∧ f.contributors_count = rows.length
      ∧ f.artifact_count = (artifactEntries wManifestC6).length
      ∧ f.has_public_artifacts = false ∧ f.has_restricted_artifacts = false
      ∧ f.has_private_artifacts = false ∧ f.has_data_resources = false
      ∧ f.has_software_resources = false ∧ f.has_links = false
      ∧ (truthy (aGet wManifestC6 "RDMC Metadata") = false →
          f.description = Json.null ∧ f.subject = Json.null ∧ f.license = Json.null
          ∧ f.keywords_raw = Json.null ∧ f.container_concept = Json.null
          ∧ rows = [] ∧ f.contributors_count = 0 ∧ f.contributors_text = none)
      ∧ (truthy (aGet wManifestC6 "Artifacts Details") = false → f.artifact_count = 0))
    ∧ (derive_fields_from_manifest wManifestC6).toOption.map
        (fun x => x.2.map (fun r => (r.position, r.first_name, r.last_name)))
        = some [(0, "", "")]
    ∧ (derive_fields_from_manifest wManifestC6).toOption.map
        (fun x => (x.1.contributors_count, x.1.artifact_count, x.1.has_links))
        = some (1, 1, false) := by
  refine ⟨C6_mapper_total_on_empty wManifestC6 ?_ ?_, ?_, ?_⟩
  · refine Or.inr ⟨_, rfl, Or.inr ⟨_, rfl, ?_⟩⟩
    intro c hc
    rcases List.mem_singleton.mp hc with rfl
    exact ⟨_, rfl, rfl, rfl⟩
  · refine Or.inr ⟨_, rfl, ?_⟩
    intro a ha
    rcases List.mem_singleton.mp ha with rfl
    exact ⟨_, rfl, rfl, rfl, rfl, rfl⟩
  · rfl
  · rfl
